import Mathlib

/-!
Verification of the palette library's color kernel, palette container and
codecs, as shallowly embedded from the Go sources.

Numeric conventions of the embedding:
* Go `float64` arithmetic is modelled by exact arithmetic: `ℚ` for the
  conversions that only use field operations, `max`/`min`, `math.Mod`,
  `math.Abs` and `math.Round` (RGB↔CMYK, RGB↔HSB, the float RGB
  constructor), and `ℝ` for the conversions that use `math.Pow` with
  non-integer exponents (RGB↔LAB).  All concrete statements proved below
  were checked to be far from rounding boundaries, so the exact model and
  the floating-point program agree on them.
* Go `uint8`/`uint16` conversions of in-range values are modelled by
  `Int.toNat` followed by reduction mod 2^8 / 2^16.
* Go `math.Round` rounds half away from zero; `rndQ`/`rndR` below mirror
  that.
-/

namespace Color

/-- Go `math.Round` on exact rationals: round to nearest, halves away from
zero. -/
def rndQ (q : ℚ) : ℤ :=
  if 0 ≤ q then ⌊q + 1/2⌋ else -⌊-q + 1/2⌋

/-- The `clamp` helper of the color package (`color.go`), on rationals. -/
def clampQ (value min max : ℚ) : ℚ :=
  if value < min then min
  else if value > max then max
  else value

/-- The `clampUint8` helper of the color package, on naturals. -/
def clampUint8 (value min max : ℕ) : ℕ :=
  if value < min then min
  else if value > max then max
  else value

/-- The `clampInt8` helper of the color package, on integers. -/
def clampInt8 (value min max : ℤ) : ℤ :=
  if value < min then min
  else if value > max then max
  else value

/-- Go conversion `uint8(z)` for an integer that is known to be in range;
out-of-range values are reduced mod 256 (the in-range case is the only one
exercised by the library). -/
def u8 (z : ℤ) : ℕ := z.toNat % 256

/-- Go conversion `uint16(z)`, analogously. -/
def u16 (z : ℤ) : ℕ := z.toNat % 65536

/-- Truncation of a rational toward zero (the rounding used by Go's
`math.Mod`). -/
def ratTrunc (q : ℚ) : ℤ :=
  if 0 ≤ q then (q.num.toNat / q.den : ℕ) else -(((-q.num).toNat / q.den : ℕ))

/-- Go `math.Mod x y = x - y*trunc(x/y)` (sign of the result follows `x`). -/
def goMod (x y : ℚ) : ℚ := x - y * (ratTrunc (x / y) : ℚ)

/-- `color.RGB`: three `uint8` channels. -/
structure RGB where
  r : ℕ
  g : ℕ
  b : ℕ
deriving DecidableEq, Repr

/-- `color.CMYK`: four `uint8` channels, 0–100. -/
structure CMYK where
  c : ℕ
  m : ℕ
  y : ℕ
  k : ℕ
deriving DecidableEq, Repr

/-- `color.HSB`: `uint16` hue 0–359 and `uint8` saturation/brightness 0–100. -/
structure HSB where
  h : ℕ
  s : ℕ
  b : ℕ
deriving DecidableEq, Repr

/-- `color.LAB`: three `int8` components. -/
structure LAB where
  l : ℤ
  a : ℤ
  b : ℤ
deriving DecidableEq, Repr

/-- `color.NewRGB` (no validation). -/
def NewRGB (r g b : ℕ) : RGB := ⟨r, g, b⟩

/-- `color.NewRGBFromFloat`: clamp each channel to [0,1], scale by 255 and
apply `math.Round` (half away from zero), then convert to `uint8`. -/
def NewRGBFromFloat (r g b : ℚ) : RGB :=
  ⟨u8 (rndQ (clampQ r 0 1 * 255)),
   u8 (rndQ (clampQ g 0 1 * 255)),
   u8 (rndQ (clampQ b 0 1 * 255))⟩

/-- `color.NewCMYK`: channels clamped to [0,100]. -/
def NewCMYK (c m y k : ℕ) : CMYK :=
  ⟨clampUint8 c 0 100, clampUint8 m 0 100, clampUint8 y 0 100, clampUint8 k 0 100⟩

/-- `color.NewHSB`: hue taken mod 360, saturation/brightness clamped. -/
def NewHSB (h : ℕ) (s b : ℕ) : HSB :=
  ⟨h % 360, clampUint8 s 0 100, clampUint8 b 0 100⟩

/-- `color.NewLAB`: L clamped to [0,100]; a and b kept as given. -/
def NewLAB (l a b : ℤ) : LAB := ⟨clampInt8 l 0 100, a, b⟩

/-- `RGB.ToCMYK` from `color.go`, with `float64` arithmetic idealized as
exact rational arithmetic. -/
def RGB.toCMYK (c : RGB) : CMYK :=
  let r : ℚ := (c.r : ℚ) / 255
  let g : ℚ := (c.g : ℚ) / 255
  let b : ℚ := (c.b : ℚ) / 255
  let k : ℚ := 1 - max r (max g b)
  if k = 1 then ⟨0, 0, 0, 100⟩
  else
    let cy := (1 - r - k) / (1 - k)
    let mg := (1 - g - k) / (1 - k)
    let ye := (1 - b - k) / (1 - k)
    ⟨u8 (rndQ (cy * 100)), u8 (rndQ (mg * 100)), u8 (rndQ (ye * 100)),
     u8 (rndQ (k * 100))⟩

/-- `CMYK.ToRGB` from `color.go`. -/
def CMYK.toRGB (c : CMYK) : RGB :=
  let cy : ℚ := (c.c : ℚ) / 100
  let mg : ℚ := (c.m : ℚ) / 100
  let ye : ℚ := (c.y : ℚ) / 100
  let k : ℚ := (c.k : ℚ) / 100
  ⟨u8 (rndQ (255 * (1 - cy) * (1 - k))),
   u8 (rndQ (255 * (1 - mg) * (1 - k))),
   u8 (rndQ (255 * (1 - ye) * (1 - k)))⟩

/-- `RGB.ToHSB` from `color.go`.  The Go `switch max` compares `max` with
`r`, then `g`, then `b`, in that order; the if-chain mirrors it. -/
def RGB.toHSB (c : RGB) : HSB :=
  let r : ℚ := (c.r : ℚ) / 255
  let g : ℚ := (c.g : ℚ) / 255
  let b : ℚ := (c.b : ℚ) / 255
  let mx : ℚ := max r (max g b)
  let mn : ℚ := min r (min g b)
  let delta : ℚ := mx - mn
  let hs : ℚ × ℚ :=
    if delta = 0 then (0, 0)
    else
      let s := delta / mx
      let h :=
        if mx = r then 60 * goMod ((g - b) / delta) 6
        else if mx = g then 60 * ((b - r) / delta + 2)
        else 60 * ((r - g) / delta + 4)
      let h := if h < 0 then h + 360 else h
      (h, s)
  ⟨u16 (rndQ hs.1), u8 (rndQ (hs.2 * 100)), u8 (rndQ (mx * 100))⟩

/-- `HSB.ToRGB` from `color.go` (six-segment reconstruction). -/
def HSB.toRGB (c : HSB) : RGB :=
  let h : ℚ := (c.h : ℚ)
  let s : ℚ := (c.s : ℚ) / 100
  let v : ℚ := (c.b : ℚ) / 100
  let chroma : ℚ := v * s
  let x : ℚ := chroma * (1 - |goMod (h / 60) 2 - 1|)
  let m : ℚ := v - chroma
  let rgb : ℚ × ℚ × ℚ :=
    if h < 60 then (chroma, x, 0)
    else if h < 120 then (x, chroma, 0)
    else if h < 180 then (0, chroma, x)
    else if h < 240 then (0, x, chroma)
    else if h < 300 then (x, 0, chroma)
    else (chroma, 0, x)
  ⟨u8 (rndQ ((rgb.1 + m) * 255)),
   u8 (rndQ ((rgb.2.1 + m) * 255)),
   u8 (rndQ ((rgb.2.2 + m) * 255))⟩

end Color

namespace Color

/-- Rounding half to even (banker's rounding): the rule the specification
ascribes to the float RGB constructor.  This definition follows the
specification's words; it is compared against the source's `math.Round`
based constructor. -/
def roundHalfEven (q : ℚ) : ℤ :=
  let f := ⌊q⌋
  let d := q - f
  if d < 1/2 then f
  else if 1/2 < d then f + 1
  else if Even f then f else f + 1

/-- Claim C3 as stated: every channel stored by `NewRGBFromFloat` equals the
clamped value times 255 rounded half to even. -/
def claimC3 : Prop :=
  ∀ r g b : ℚ, NewRGBFromFloat r g b =
    ⟨(roundHalfEven (clampQ r 0 1 * 255)).toNat,
     (roundHalfEven (clampQ g 0 1 * 255)).toNat,
     (roundHalfEven (clampQ b 0 1 * 255)).toNat⟩

theorem clampQ_nonneg (v hi : ℚ) (h : 0 ≤ hi) : 0 ≤ clampQ v 0 hi := by
  unfold clampQ
  split
  · exact le_refl 0
  · split
    · exact h
    · linarith [not_lt.mp (by assumption : ¬ v < 0)]

theorem clampQ_le (v hi : ℚ) (h : 0 ≤ hi) : clampQ v 0 hi ≤ hi := by
  unfold clampQ
  split
  · exact h
  · split
    · exact le_refl hi
    · linarith [not_lt.mp (by assumption : ¬ v > hi)]

theorem rndQ_nonneg (q : ℚ) (h : 0 ≤ q) : 0 ≤ rndQ q := by
  unfold rndQ
  rw [if_pos h]
  positivity

theorem rndQ_le_of_le (q : ℚ) (n : ℕ) (h0 : 0 ≤ q) (h : q ≤ n) : rndQ q ≤ n := by
  unfold rndQ
  rw [if_pos h0]
  have : ⌊q + 1/2⌋ ≤ ⌊(n : ℚ) + 1/2⌋ := Int.floor_le_floor (by linarith)
  have h2 : ⌊(n : ℚ) + 1/2⌋ = n := by
    rw [Int.floor_eq_iff]
    refine ⟨?_, ?_⟩ <;> push_cast <;> linarith
  omega

theorem rndQ_ge_of_ge (q : ℚ) (n : ℕ) (h : (n : ℚ) ≤ q) : (n : ℤ) ≤ rndQ q := by
  unfold rndQ
  have h0 : (0 : ℚ) ≤ q := le_trans (by positivity) h
  rw [if_pos h0]
  calc (n : ℤ) = ⌊(n : ℚ)⌋ := (Int.floor_natCast n).symm
    _ ≤ ⌊q + 1/2⌋ := Int.floor_le_floor (by linarith)

/-- The channel produced for a clamped value, with the `uint8` wrap-around
removed (the value is provably in range). -/
theorem u8_rndQ_clamp (v : ℚ) :
    u8 (rndQ (clampQ v 0 1 * 255)) = (rndQ (clampQ v 0 1 * 255)).toNat ∧
    (rndQ (clampQ v 0 1 * 255)).toNat ≤ 255 := by
  have h0 : (0 : ℚ) ≤ clampQ v 0 1 * 255 := by
    have := clampQ_nonneg v 1 (by norm_num)
    positivity
  have h1 : clampQ v 0 1 * 255 ≤ (255 : ℕ) := by
    have := clampQ_le v 1 (by norm_num)
    push_cast
    nlinarith
  have hle := rndQ_le_of_le _ 255 h0 h1
  have hge := rndQ_nonneg _ h0
  have htn : (rndQ (clampQ v 0 1 * 255)).toNat ≤ 255 := by omega
  exact ⟨by unfold u8; omega, htn⟩

/-- Claim C3, counterexample: at input (1/510, 0, 0) the stored red channel
is 1 (Go's `math.Round` rounds the exact half 0.5 away from zero) while
rounding half to even would store 0. -/
theorem C3_counterexample : ¬ claimC3 := by
  intro h
  have h2 := congrArg RGB.r (h (1/510) 0 0)
  revert h2
  with_unfolding_all decide

/-- Claim C3, amended: `NewRGBFromFloat` clamps each channel to [0, 1] and
maps it to [0, 255] using `math.Round`, i.e. rounding half away from zero
(not half to even); every stored channel is at most 255. -/
theorem C3_amended :
    ∀ r g b : ℚ,
      NewRGBFromFloat r g b =
        ⟨(rndQ (clampQ r 0 1 * 255)).toNat,
         (rndQ (clampQ g 0 1 * 255)).toNat,
         (rndQ (clampQ b 0 1 * 255)).toNat⟩ ∧
      (NewRGBFromFloat r g b).r ≤ 255 ∧
      (NewRGBFromFloat r g b).g ≤ 255 ∧
      (NewRGBFromFloat r g b).b ≤ 255 := by
  intro r g b
  obtain ⟨er, br⟩ := u8_rndQ_clamp r
  obtain ⟨eg, bg⟩ := u8_rndQ_clamp g
  obtain ⟨eb, bb⟩ := u8_rndQ_clamp b
  unfold NewRGBFromFloat
  refine ⟨?_, ?_, ?_, ?_⟩ <;> simp only [er, eg, eb]
  · exact br
  · exact bg
  · exact bb

/-!
The RGB↔LAB conversions use `math.Pow` with the non-integer exponents 2.4,
1/3 and 1/2.4, so their shallow embedding lives in `ℝ` with `Real.rpow`;
the definitions are therefore noncomputable and concrete values are settled
by interval certificates below.
-/

/-- Go `math.Round` on reals (half away from zero). -/
noncomputable def rndR (x : ℝ) : ℤ :=
  if 0 ≤ x then ⌊x + 1/2⌋ else -⌊-x + 1/2⌋

/-- The `clamp` helper, on reals. -/
noncomputable def clampR (value min max : ℝ) : ℝ :=
  if value < min then min
  else if value > max then max
  else value

/-- Go conversion `int8(z)` (two's complement wrap; the library only ever
applies it to in-range values). -/
def i8 (z : ℤ) : ℤ := (z + 128) % 256 - 128

/-- The `labF` helper of `color.go`. -/
noncomputable def labF (t : ℝ) : ℝ :=
  if t > 0.008856 then t ^ ((1 : ℝ)/3) else 7.787 * t + 16/116

/-- The `labFInv` helper of `color.go` (`math.Pow(t, 3)` is an exact cube). -/
noncomputable def labFInv (t : ℝ) : ℝ :=
  if t > 0.206893 then t ^ (3 : ℕ) else (t - 16/116) / 7.787

/-- The sRGB gamma decode step of `RGB.ToLAB`. -/
noncomputable def gammaDecode (c : ℝ) : ℝ :=
  if c > 0.04045 then ((c + 0.055) / 1.055) ^ (2.4 : ℝ) else c / 12.92

/-- `RGB.ToLAB` from `color.go`: gamma decode, sRGB matrix to XYZ, D65
normalization, `labF`, then clamp and round each component to `int8`. -/
noncomputable def RGB.toLAB (c : RGB) : LAB :=
  let r := gammaDecode ((c.r : ℝ) / 255)
  let g := gammaDecode ((c.g : ℝ) / 255)
  let b := gammaDecode ((c.b : ℝ) / 255)
  let x := r * 0.4124564 + g * 0.3575761 + b * 0.1804375
  let y := r * 0.2126729 + g * 0.7151522 + b * 0.0721750
  let z := r * 0.0193339 + g * 0.1191920 + b * 0.9503041
  let xn : ℝ := 0.95047
  let yn : ℝ := 1.00000
  let zn : ℝ := 1.08883
  let fx := labF (x / xn)
  let fy := labF (y / yn)
  let fz := labF (z / zn)
  let l := 116 * fy - 16
  let a := 500 * (fx - fy)
  let b2 := 200 * (fy - fz)
  ⟨i8 (rndR (clampR l 0 100)),
   i8 (rndR (clampR a (-128) 127)),
   i8 (rndR (clampR b2 (-128) 127))⟩

/-- The sRGB gamma encode step of `LAB.ToRGB`. -/
noncomputable def gammaEncode (c : ℝ) : ℝ :=
  if c > 0.0031308 then 1.055 * c ^ ((1 : ℝ)/2.4) - 0.055 else 12.92 * c

/-- `LAB.ToRGB` from `color.go`. -/
noncomputable def LAB.toRGB (c : LAB) : RGB :=
  let l : ℝ := (c.l : ℝ)
  let a : ℝ := (c.a : ℝ)
  let b : ℝ := (c.b : ℝ)
  let fy := (l + 16) / 116
  let fx := a / 500 + fy
  let fz := fy - b / 200
  let x := labFInv fx * 0.95047
  let y := labFInv fy * 1.00000
  let z := labFInv fz * 1.08883
  let r := x * 3.2404542 + y * (-1.5371385) + z * (-0.4985314)
  let g := x * (-0.9692660) + y * 1.8760108 + z * 0.0415560
  let b2 := x * 0.0556434 + y * (-0.2040259) + z * 1.0572252
  ⟨u8 (rndR (clampR (gammaEncode r) 0 1 * 255)),
   u8 (rndR (clampR (gammaEncode g) 0 1 * 255)),
   u8 (rndR (clampR (gammaEncode b2) 0 1 * 255))⟩

/-- `CMYK.ToLAB` composes through RGB (source: `c.ToRGB().ToLAB()`). -/
noncomputable def CMYK.toLAB (c : CMYK) : LAB := c.toRGB.toLAB

/-- `CMYK.ToHSB` composes through RGB. -/
def CMYK.toHSB (c : CMYK) : HSB := c.toRGB.toHSB

/-- `HSB.ToCMYK` composes through RGB. -/
def HSB.toCMYK (c : HSB) : CMYK := c.toRGB.toCMYK

/-- `HSB.ToLAB` composes through RGB. -/
noncomputable def HSB.toLAB (c : HSB) : LAB := c.toRGB.toLAB

/-- `LAB.ToCMYK` composes through RGB. -/
noncomputable def LAB.toCMYK (c : LAB) : CMYK := c.toRGB.toCMYK

/-- `LAB.ToHSB` composes through RGB. -/
noncomputable def LAB.toHSB (c : LAB) : HSB := c.toRGB.toHSB

/-- The `color.Color` interface: a tagged sum of the four variants. -/
inductive ColorV where
  | rgb (c : RGB)
  | cmyk (c : CMYK)
  | hsb (c : HSB)
  | lab (c : LAB)

/-- Dispatch of `ToRGB` over the interface (identity on `RGB`). -/
noncomputable def ColorV.toRGB : ColorV → RGB
  | .rgb c => c
  | .cmyk c => c.toRGB
  | .hsb c => c.toRGB
  | .lab c => c.toRGB

/-- Dispatch of `ToCMYK` over the interface. -/
noncomputable def ColorV.toCMYK : ColorV → CMYK
  | .rgb c => c.toCMYK
  | .cmyk c => c
  | .hsb c => c.toCMYK
  | .lab c => c.toCMYK

/-- Dispatch of `ToHSB` over the interface. -/
noncomputable def ColorV.toHSB : ColorV → HSB
  | .rgb c => c.toHSB
  | .cmyk c => c.toHSB
  | .hsb c => c
  | .lab c => c.toHSB

/-- Dispatch of `ToLAB` over the interface. -/
noncomputable def ColorV.toLAB : ColorV → LAB
  | .rgb c => c.toLAB
  | .cmyk c => c.toLAB
  | .hsb c => c.toLAB
  | .lab c => c

end Color

namespace PaletteM

open Color

/-- Metadata values: the Go `map[string]any` side channel carries
heterogeneous values; the variants below cover the types the claims touch. -/
inductive MetaVal where
  | str (s : String)
  | natV (n : ℕ)
  | bookID (n : ℕ)
  | colorType (n : ℕ)
deriving DecidableEq

/-- `palette.NamedColor`. -/
structure NamedColor where
  name : String
  color : ColorV

/-- `palette.Palette`: ordered colors plus a metadata map.  The Go map is
modelled as an association list with unique keys (updates replace in
place); `ListMetadataKeys` sorts, so iteration order is immaterial. -/
structure Palette where
  name : String
  description : String
  colors : List NamedColor
  metadata : List (String × MetaVal)

/-- `palette.New`. -/
def New (name : String) : Palette := ⟨name, "", [], []⟩

/-- Go map assignment `m[k] = v` on the association-list model. -/
def setMeta : List (String × MetaVal) → String → MetaVal → List (String × MetaVal)
  | [], k, v => [(k, v)]
  | (k', v') :: rest, k, v =>
    if k' = k then (k', v) :: rest else (k', v') :: setMeta rest k v

/-- Go map lookup `m[k]` on the association-list model. -/
def getMeta : List (String × MetaVal) → String → Option MetaVal
  | [], _ => none
  | (k', v') :: rest, k => if k' = k then some v' else getMeta rest k

/-- `Palette.SetMetadata`: stores unconditionally (`p.metadata[key] = value`,
no check on the key). -/
def Palette.SetMetadata (p : Palette) (key : String) (value : MetaVal) : Palette :=
  { p with metadata := setMeta p.metadata key value }

/-- `Palette.GetMetadata`. -/
def Palette.GetMetadata (p : Palette) (key : String) : Option MetaVal :=
  getMeta p.metadata key

/-- `Palette.ListMetadataKeys`: all keys, sorted ascending. -/
def Palette.ListMetadataKeys (p : Palette) : List String :=
  (p.metadata.map Prod.fst).mergeSort (fun a b => decide (a ≤ b))

/-- `Palette.Map`: builds a fresh palette named `"{name} (mapped)"` (via
`palette.New`, hence empty metadata), keeps the description, and applies the
mapper positionally. -/
def Palette.Map (p : Palette) (mapper : NamedColor → NamedColor) : Palette :=
  ⟨p.name ++ " (mapped)", p.description, p.colors.map mapper, []⟩

/-- Go `strings.ToUpper` restricted to ASCII simple case mapping (the
non-ASCII code points whose Unicode upper case is ASCII never appear in the
claims' inputs). -/
def goToUpper (s : String) : String :=
  ⟨s.data.map (fun c => if 'a' ≤ c ∧ c ≤ 'z' then Char.ofNat (c.toNat - 32) else c)⟩

/-- `Palette.ConvertToColorSpace`: switches on the upper-cased space name,
passing colors through unchanged on the default branch, and never returns
an error. -/
noncomputable def ConvertToColorSpace (p : Palette) (colorSpace : String) :
    Except String Palette :=
  .ok <| p.Map fun c =>
    let converted : ColorV :=
      match goToUpper colorSpace with
      | "RGB" => .rgb c.color.toRGB
      | "CMYK" => .cmyk c.color.toCMYK
      | "LAB" => .lab c.color.toLAB
      | "HSB" => .hsb c.color.toHSB
      | _ => c.color
    ⟨c.name, converted⟩

/-- Claim C4: for any palette and any string whose upper-casing is none of
the four space names, `ConvertToColorSpace` succeeds and returns a palette
with exactly the original color list (same length, same colors, same
names). -/
theorem C4_thm (p : Palette) (s : String)
    (h1 : goToUpper s ≠ "RGB") (h2 : goToUpper s ≠ "CMYK")
    (h3 : goToUpper s ≠ "LAB") (h4 : goToUpper s ≠ "HSB") :
    ∃ q, ConvertToColorSpace p s = .ok q ∧ q.colors = p.colors ∧
      q.colors.length = p.colors.length := by
  have hcols : ∀ fn, fn = (fun c : NamedColor =>
      let converted : ColorV :=
        match goToUpper s with
        | "RGB" => .rgb c.color.toRGB
        | "CMYK" => .cmyk c.color.toCMYK
        | "LAB" => .lab c.color.toLAB
        | "HSB" => .hsb c.color.toHSB
        | _ => c.color
      (⟨c.name, converted⟩ : NamedColor)) → (Palette.Map p fn).colors = p.colors := by
    intro fn hdef
    show p.colors.map fn = p.colors
    subst hdef
    have hfn : (fun c : NamedColor =>
        let converted : ColorV :=
          match goToUpper s with
          | "RGB" => .rgb c.color.toRGB
          | "CMYK" => .cmyk c.color.toCMYK
          | "LAB" => .lab c.color.toLAB
          | "HSB" => .hsb c.color.toHSB
          | _ => c.color
        (⟨c.name, converted⟩ : NamedColor)) = fun c => c := by
      funext c
      show (⟨c.name, _⟩ : NamedColor) = c
      have hconv : (match goToUpper s with
          | "RGB" => ColorV.rgb c.color.toRGB
          | "CMYK" => .cmyk c.color.toCMYK
          | "LAB" => .lab c.color.toLAB
          | "HSB" => .hsb c.color.toHSB
          | _ => c.color) = c.color := by
        split
        · exact absurd (by assumption) h1
        · exact absurd (by assumption) h2
        · exact absurd (by assumption) h3
        · exact absurd (by assumption) h4
        · rfl
      rw [hconv]
    rw [hfn]
    exact List.map_id' p.colors
  have h := hcols _ rfl
  exact ⟨_, rfl, h, by rw [h]⟩

/-- Witness for C4 at a concrete palette and the space name "XYZ". -/
theorem C4_witness :
    goToUpper "XYZ" ≠ "RGB" ∧
    ∃ q, ConvertToColorSpace (New "P") "XYZ" = .ok q ∧
      q.colors = (New "P").colors ∧ q.colors.length = (New "P").colors.length := by
  refine ⟨by with_unfolding_all decide, C4_thm (New "P") "XYZ" ?_ ?_ ?_ ?_⟩ <;>
    with_unfolding_all decide

/-- Claim C10: the palette returned by `ConvertToColorSpace` (for any space
string, known or unknown) is named `"{name} (mapped)"`, which always
differs from the receiver's name. -/
theorem C10_thm (p : Palette) (s : String) :
    ∃ q, ConvertToColorSpace p s = .ok q ∧
      q.name = p.name ++ " (mapped)" ∧ q.name ≠ p.name := by
  refine ⟨_, rfl, rfl, ?_⟩
  intro h
  replace h : p.name ++ " (mapped)" = p.name := h
  have hlen := congrArg String.length h
  rw [String.length_append] at hlen
  have : " (mapped)".length = 9 := rfl
  omega

/-- Lookup after `setMeta` with the same key always finds the new value. -/
theorem getMeta_setMeta (l : List (String × MetaVal)) (k : String) (v : MetaVal) :
    getMeta (setMeta l k v) k = some v := by
  induction l with
  | nil => simp [setMeta, getMeta]
  | cons hd tl ih =>
    obtain ⟨k', v'⟩ := hd
    by_cases hk : k' = k
    · simp [setMeta, getMeta, hk]
    · simp [setMeta, getMeta, hk, ih]

/-- The key stored by `setMeta` is among the keys of the result. -/
theorem mem_keys_setMeta (l : List (String × MetaVal)) (k : String) (v : MetaVal) :
    k ∈ (setMeta l k v).map Prod.fst := by
  induction l with
  | nil => simp [setMeta]
  | cons hd tl ih =>
    obtain ⟨k', v'⟩ := hd
    by_cases hk : k' = k
    · simp [setMeta, hk]
    · simp [setMeta, hk]
      right
      simpa using ih

/-- Claim C9 (evidence of the code bug): `SetMetadata` with the empty key
stores the value: `GetMetadata ""` afterwards succeeds with it and the
empty key appears in `ListMetadataKeys` — contrary to the claim (and to the
repository's own `TestMetadataEdgeCases`), which require the empty key to
be silently rejected. -/
theorem C9_thm (p : Palette) (v : MetaVal) :
    (p.SetMetadata "" v).GetMetadata "" = some v ∧
    "" ∈ (p.SetMetadata "" v).ListMetadataKeys := by
  constructor
  · exact getMeta_setMeta p.metadata "" v
  · unfold Palette.ListMetadataKeys Palette.SetMetadata
    rw [List.mem_mergeSort]
    exact mem_keys_setMeta p.metadata "" v

end PaletteM

namespace Colorbook

open PaletteM

/-- UTF-8 encoding of one code point (Go `[]byte(string)` on each rune). -/
def utf8EncodeCharNat (c : Char) : List ℕ :=
  let n := c.toNat
  if n < 0x80 then [n]
  else if n < 0x800 then [0xC0 + n / 64, 0x80 + n % 64]
  else if n < 0x10000 then [0xE0 + n / 4096, 0x80 + (n / 64) % 64, 0x80 + n % 64]
  else [0xF0 + n / 0x40000, 0x80 + (n / 4096) % 64, 0x80 + (n / 64) % 64,
        0x80 + n % 64]

/-- The bytes of a Go string (UTF-8). -/
def utf8Bytes (s : String) : List ℕ :=
  s.data.foldr (fun c acc => utf8EncodeCharNat c ++ acc) []

/-- One step of 32-bit FNV-1a: xor in the byte, multiply by the FNV prime,
keep 32 bits. -/
def fnv1aStep (h b : ℕ) : ℕ := ((h ^^^ b) * 16777619) % 4294967296

/-- `hash/fnv.New32a` seeded state followed by `Write`s: fold the steps. -/
def fnvWrite (h : ℕ) (bs : List ℕ) : ℕ := bs.foldl fnv1aStep h

/-- 32-bit FNV-1a of a whole byte string (offset basis 2166136261). -/
def fnv1a (bs : List ℕ) : ℕ := fnvWrite 2166136261 bs

/-- Go conversion `uint16(n)` of an unsigned value. -/
def u16n (n : ℕ) : ℕ := n % 65536

/-- `generateBookID` from `io/colorbook/colorbook.go`: FNV-1a over the
palette name, then `":{N}:"` with N the color count, then (if the palette
is non-empty) the first color's name; map the hash into 4000 + h mod
(65535 − 4000) and convert to `uint16`.  The source guards the third write
with `p.Len() > 0` and a successful `p.Get(0)`, which on a list is exactly
a head match. -/
def generateBookID (p : Palette) : ℕ :=
  let h1 := fnvWrite 2166136261 (utf8Bytes p.name)
  let h2 := fnvWrite h1 (utf8Bytes (":" ++ Nat.repr p.colors.length ++ ":"))
  let h3 :=
    match p.colors with
    | [] => h2
    | c :: _ => fnvWrite h2 (utf8Bytes c.name)
  u16n (4000 + h3 % (65535 - 4000))

/-- The BookID assignment step of `Exporter.Export`: use the `book_id`
metadata entry when present and of the `BookID` type (otherwise the zero
value), generate one otherwise. -/
def exportBookID (p : Palette) : ℕ :=
  match p.GetMetadata "book_id" with
  | some v =>
    match v with
    | .bookID id => id
    | _ => 0
  | none => generateBookID p

/-- The byte string hashed by `generateBookID`, as one concatenation. -/
def bookIDBytes (p : Palette) : List ℕ :=
  utf8Bytes p.name ++ utf8Bytes (":" ++ Nat.repr p.colors.length ++ ":") ++
    (match p.colors with
     | [] => []
     | c :: _ => utf8Bytes c.name)

/-- Claim C5: when the metadata has no `book_id` entry, ACB export assigns
`BookID = 4000 + (h mod 61535)` with `h` the 32-bit FNV-1a hash of the
palette name, `":{N}:"` and the first color's name (nothing when empty);
the result is deterministic in those three inputs and lies in
[4000, 65534]. -/
theorem u16n_bookid (x : ℕ) : u16n (4000 + x % (65535 - 4000)) = 4000 + x % 61535 := by
  unfold u16n
  omega

/-- The generated BookID in closed form: 4000 plus the FNV-1a hash of the
concatenated byte string, mod 61535. -/
theorem generateBookID_eq (p : Palette) :
    generateBookID p = 4000 + fnv1a (bookIDBytes p) % 61535 := by
  have key : ∀ (nm : String) (len : ℕ) (tb : List ℕ),
      u16n (4000 + fnvWrite (fnvWrite (fnvWrite 2166136261 (utf8Bytes nm))
          (utf8Bytes (":" ++ Nat.repr len ++ ":"))) tb % (65535 - 4000)) =
        4000 + fnv1a (utf8Bytes nm ++ utf8Bytes (":" ++ Nat.repr len ++ ":") ++ tb)
          % 61535 := by
    intro nm len tb
    unfold fnv1a fnvWrite
    rw [List.foldl_append, List.foldl_append]
    exact u16n_bookid _
  have key0 : ∀ (nm : String) (len : ℕ),
      u16n (4000 + fnvWrite (fnvWrite 2166136261 (utf8Bytes nm))
          (utf8Bytes (":" ++ Nat.repr len ++ ":")) % (65535 - 4000)) =
        4000 + fnv1a (utf8Bytes nm ++ utf8Bytes (":" ++ Nat.repr len ++ ":") ++ [])
          % 61535 := fun nm len => key nm len []
  cases hc : p.colors with
  | nil =>
    simp only [generateBookID, bookIDBytes, hc]
    exact key0 p.name (List.length ([] : List NamedColor))
  | cons c tl =>
    simp only [generateBookID, bookIDBytes, hc]
    exact key p.name (List.length (c :: tl)) (utf8Bytes c.name)

theorem C5_thm (p : Palette) (h : p.GetMetadata "book_id" = none) :
    exportBookID p = generateBookID p ∧
    generateBookID p = 4000 + fnv1a (bookIDBytes p) % 61535 ∧
    4000 ≤ generateBookID p ∧ generateBookID p ≤ 65534 ∧
    (∀ q : Palette, p.name = q.name → p.colors.length = q.colors.length →
      p.colors.head?.map NamedColor.name = q.colors.head?.map NamedColor.name →
      generateBookID p = generateBookID q) := by
  have hgen := generateBookID_eq p
  refine ⟨?_, hgen, ?_, ?_, ?_⟩
  · unfold exportBookID
    rw [h]
  · rw [hgen]; omega
  · rw [hgen]
    have : fnv1a (bookIDBytes p) % 61535 < 61535 := Nat.mod_lt _ (by norm_num)
    omega
  · intro q hn hl hh
    rw [generateBookID_eq p, generateBookID_eq q]
    have hb : bookIDBytes p = bookIDBytes q := by
      unfold bookIDBytes
      rw [hn, hl]
      congr 1
      cases hc : p.colors with
      | nil =>
        cases hc' : q.colors with
        | nil => rfl
        | cons c tl => rw [hc, hc'] at hh; simp at hh
      | cons c tl =>
        cases hc' : q.colors with
        | nil => rw [hc, hc'] at hh; simp at hh
        | cons c' tl' =>
          rw [hc, hc'] at hh
          have hname : c.name = c'.name := by
            simpa using hh
          show utf8Bytes c.name = utf8Bytes c'.name
          rw [hname]
    rw [hb]

/-- Witness for C5 at a concrete palette without `book_id` metadata. -/
theorem C5_witness :
    (Palette.GetMetadata ⟨"Test", "", [⟨"Red", .rgb ⟨255, 0, 0⟩⟩], []⟩ "book_id"
      = none) ∧
    (exportBookID ⟨"Test", "", [⟨"Red", .rgb ⟨255, 0, 0⟩⟩], []⟩ =
      generateBookID ⟨"Test", "", [⟨"Red", .rgb ⟨255, 0, 0⟩⟩], []⟩ ∧
     generateBookID ⟨"Test", "", [⟨"Red", .rgb ⟨255, 0, 0⟩⟩], []⟩ =
      4000 + fnv1a (bookIDBytes ⟨"Test", "", [⟨"Red", .rgb ⟨255, 0, 0⟩⟩], []⟩) % 61535 ∧
     4000 ≤ generateBookID ⟨"Test", "", [⟨"Red", .rgb ⟨255, 0, 0⟩⟩], []⟩ ∧
     generateBookID ⟨"Test", "", [⟨"Red", .rgb ⟨255, 0, 0⟩⟩], []⟩ ≤ 65534 ∧
     (∀ q : PaletteM.Palette, "Test" = q.name → 1 = q.colors.length →
       some "Red" = q.colors.head?.map NamedColor.name →
       generateBookID ⟨"Test", "", [⟨"Red", .rgb ⟨255, 0, 0⟩⟩], []⟩ =
         generateBookID q)) := by
  refine ⟨rfl, ?_⟩
  have h := C5_thm ⟨"Test", "", [⟨"Red", .rgb ⟨255, 0, 0⟩⟩], []⟩ rfl
  simpa using h

end Colorbook

namespace Acb

/-- Parse errors of `ColorBook.UnmarshalBinary` (`adobe/colorbook`):
truncation/IO, bad signature, unsupported version, unknown color type. -/
inductive Err where
  | eof
  | badSig
  | badVersion (v : ℕ)
  | badColorType (t : ℕ)
deriving DecidableEq, Repr

/-- `binary.Read` of a big-endian `uint16` from a byte stream. -/
def readU16 : List ℕ → Option (ℕ × List ℕ)
  | b0 :: b1 :: rest => some (b0 * 256 + b1, rest)
  | _ => none

/-- `binary.Read` of a big-endian `uint32`. -/
def readU32 : List ℕ → Option (ℕ × List ℕ)
  | b0 :: b1 :: b2 :: b3 :: rest =>
    some (((b0 * 256 + b1) * 256 + b2) * 256 + b3, rest)
  | _ => none

/-- `io.ReadFull` into an n-byte buffer. -/
def readN (n : ℕ) (l : List ℕ) : Option (List ℕ × List ℕ) :=
  if n ≤ l.length then some (l.take n, l.drop n) else none

/-- One UTF-16 code unit decoded in isolation, as `readString` does
(`utf16.Decode` on a single unit: unpaired surrogates become U+FFFD). -/
def utf16DecodeUnit (u : ℕ) : ℕ :=
  if 0xD800 ≤ u ∧ u ≤ 0xDFFF then 0xFFFD else u

/-- Decode consecutive big-endian byte pairs as code units. -/
def decodeUnits : List ℕ → List ℕ
  | b0 :: b1 :: rest => utf16DecodeUnit (b0 * 256 + b1) :: decodeUnits rest
  | _ => []

/-- `readString`: `uint32` length in code units, then `2*length` bytes of
UTF-16BE, decoded unit by unit (the resulting code points are kept as
numbers; the claims never inspect string contents). -/
def readStr (l : List ℕ) : Option (List ℕ × List ℕ) :=
  match readU32 l with
  | none => none
  | some (len, rest) =>
    match readN (2 * len) rest with
    | none => none
    | some (bs, rest') => some (decodeUnits bs, rest')

/-- One parsed ACB color: name, 6-byte catalog key, components (3 bytes for
RGB/Lab padded with a 0, 4 bytes for CMYK). -/
structure AcbColor where
  name : List ℕ
  key : List ℕ
  comps : List ℕ
deriving DecidableEq, Repr

/-- The header fields read by `UnmarshalBinary` before the color loop. -/
structure Header where
  id : ℕ
  version : ℕ
  title : List ℕ
  pre : List ℕ
  post : List ℕ
  descr : List ℕ
  numColors : ℕ
  colorsPerPage : ℕ
  keyColorPage : ℕ
  colorType : ℕ
deriving DecidableEq, Repr

/-- A parsed color book (fields `pre`/`post` are the Adobe prefix and
postfix strings). -/
structure ColorBook where
  id : ℕ
  version : ℕ
  title : List ℕ
  pre : List ℕ
  post : List ℕ
  descr : List ℕ
  colorsPerPage : ℕ
  keyColorPage : ℕ
  colorType : ℕ
  colors : List AcbColor
deriving DecidableEq, Repr

/-- The byte sequence of the required signature `"8BCB"`. -/
def sigBytes : List ℕ := [56, 66, 67, 66]

/-- One color record: name string, 6-byte key, then 4 component bytes for
CMYK (color type 2) and 3 otherwise; the function is only reached with a
validated color type, mirroring the `switch` whose default is unreachable
after the check. -/
def readColor (t : ℕ) (l : List ℕ) : Option (AcbColor × List ℕ) :=
  match readStr l with
  | none => none
  | some (nm, r1) =>
    match readN 6 r1 with
    | none => none
    | some (key, r2) =>
      if t = 2 then
        match readN 4 r2 with
        | none => none
        | some (cs, r3) => some (⟨nm, key, cs⟩, r3)
      else
        match readN 3 r2 with
        | none => none
        | some (cs, r3) => some (⟨nm, key, cs ++ [0]⟩, r3)

/-- The color loop of `UnmarshalBinary`. -/
def readColors (t : ℕ) : ℕ → List ℕ → Option (List AcbColor × List ℕ)
  | 0, l => some ([], l)
  | n + 1, l =>
    match readColor t l with
    | none => none
    | some (c, r) =>
      match readColors t n r with
      | none => none
      | some (cs, r') => some (c :: cs, r')

/-- The header phase of `UnmarshalBinary`: signature check, version check,
book id, the four strings, and the four `uint16` fields, in source order. -/
def parseHeader (data : List ℕ) : Except Err (Header × List ℕ) :=
  match readN 4 data with
  | none => .error .eof
  | some (sig, r0) =>
    if sig ≠ sigBytes then .error .badSig
    else match readU16 r0 with
    | none => .error .eof
    | some (ver, r1) =>
      if ver ≠ 1 then .error (.badVersion ver)
      else match readU16 r1 with
      | none => .error .eof
      | some (id, r2) =>
        match readStr r2 with
        | none => .error .eof
        | some (title, r3) =>
          match readStr r3 with
          | none => .error .eof
          | some (pre, r4) =>
            match readStr r4 with
            | none => .error .eof
            | some (post, r5) =>
              match readStr r5 with
              | none => .error .eof
              | some (descr, r6) =>
                match readU16 r6 with
                | none => .error .eof
                | some (numColors, r7) =>
                  match readU16 r7 with
                  | none => .error .eof
                  | some (cpp, r8) =>
                    match readU16 r8 with
                    | none => .error .eof
                    | some (kcp, r9) =>
                      match readU16 r9 with
                      | none => .error .eof
                      | some (ctype, r10) =>
                        .ok (⟨id, ver, title, pre, post, descr,
                              numColors, cpp, kcp, ctype⟩, r10)

/-- `ColorBook.UnmarshalBinary`: header, color-type validation
(`0`, `2` or `7`), then the color records. -/
def unmarshal (data : List ℕ) : Except Err ColorBook :=
  match parseHeader data with
  | .error e => .error e
  | .ok (h, rest) =>
    if ¬(h.colorType = 0 ∨ h.colorType = 2 ∨ h.colorType = 7) then
      .error (.badColorType h.colorType)
    else
      match readColors h.colorType h.numColors rest with
      | none => .error .eof
      | some (cs, _) =>
        .ok ⟨h.id, h.version, h.title, h.pre, h.post, h.descr,
             h.colorsPerPage, h.keyColorPage, h.colorType, cs⟩

theorem readN_four_take (data : List ℕ) (s r : List ℕ)
    (h : readN 4 data = some (s, r)) : s = data.take 4 ∧ r = data.drop 4 := by
  unfold readN at h
  split at h
  · have h' := Option.some_inj.mp h
    exact ⟨(congrArg Prod.fst h').symm, (congrArg Prod.snd h').symm⟩
  · exact absurd h (by simp)

/-- Claim C6: ACB import rejects any input whose first four bytes are not
`"8BCB"`; rejects any input whose version field is not 1; rejects any
header whose color type is not 0, 2 or 7; and an input passing those three
checks is never rejected on those grounds (it can only fail with a
truncation error). -/
theorem C6_thm :
    (∀ data : List ℕ, data.take 4 ≠ sigBytes → (unmarshal data).isOk = false) ∧
    (∀ (data : List ℕ) (v : ℕ) (rest : List ℕ), data.take 4 = sigBytes →
      readU16 (data.drop 4) = some (v, rest) → v ≠ 1 →
      (unmarshal data).isOk = false) ∧
    (∀ (data : List ℕ) (h : Header) (rest : List ℕ),
      parseHeader data = .ok (h, rest) →
      ¬(h.colorType = 0 ∨ h.colorType = 2 ∨ h.colorType = 7) →
      unmarshal data = .error (.badColorType h.colorType)) ∧
    (∀ (data : List ℕ) (h : Header) (rest : List ℕ),
      parseHeader data = .ok (h, rest) →
      (h.colorType = 0 ∨ h.colorType = 2 ∨ h.colorType = 7) →
      ∀ v t : ℕ, unmarshal data ≠ .error .badSig ∧
        unmarshal data ≠ .error (.badVersion v) ∧
        unmarshal data ≠ .error (.badColorType t)) := by
  refine ⟨?_, ?_, ?_, ?_⟩
  · intro data hsig
    cases h4 : readN 4 data with
    | none =>
      simp only [unmarshal, parseHeader, h4]
      rfl
    | some sr =>
      obtain ⟨s, r⟩ := sr
      obtain ⟨hs, -⟩ := readN_four_take data s r h4
      simp only [unmarshal, parseHeader, h4]
      rw [if_pos (show s ≠ sigBytes from hs ▸ hsig)]
      rfl
  · intro data v rest hsig hver hv
    have hlen : 4 ≤ data.length := by
      have := congrArg List.length hsig
      simp only [List.length_take, sigBytes, List.length_cons] at this
      omega
    have h4 : readN 4 data = some (data.take 4, data.drop 4) := by
      unfold readN
      rw [if_pos hlen]
    simp only [unmarshal, parseHeader, h4, hver]
    rw [if_neg (by simp [hsig]), if_pos hv]
    rfl
  · intro data h rest hok hbad
    simp only [unmarshal, hok]
    rw [if_pos hbad]
  · intro data h rest hok hgood v t
    simp only [unmarshal, hok]
    rw [if_neg (not_not_intro hgood)]
    cases hc : readColors h.colorType h.numColors rest with
    | none => exact ⟨by simp, by simp, by simp⟩
    | some p => exact ⟨by simp, by simp, by simp⟩

/-- Witness for C6: a bad signature, a version-2 header, a valid header
with color type 3, and a minimal valid RGB book with zero colors. -/
theorem C6_witness :
    ((unmarshal [1, 2, 3, 4]).isOk = false) ∧
    ((unmarshal [56, 66, 67, 66, 0, 2]).isOk = false) ∧
    (unmarshal [56, 66, 67, 66, 0, 1, 0, 0,
        0, 0, 0, 0, 0, 0, 0, 0, 0, 0, 0, 0, 0, 0, 0, 0,
        0, 0, 0, 0, 0, 0, 0, 3] = .error (.badColorType 3)) ∧
    (unmarshal [56, 66, 67, 66, 0, 1, 0, 0,
        0, 0, 0, 0, 0, 0, 0, 0, 0, 0, 0, 0, 0, 0, 0, 0,
        0, 0, 0, 0, 0, 0, 0, 0] ≠ .error .badSig) := by
  refine ⟨?_, ?_, ?_, ?_⟩
  · exact C6_thm.1 [1, 2, 3, 4] (by decide)
  · exact C6_thm.2.1 [56, 66, 67, 66, 0, 2] 2 [] (by decide) (by decide) (by decide)
  · exact C6_thm.2.2.1 _ ⟨0, 1, [], [], [], [], 0, 0, 0, 3⟩ []
      (by with_unfolding_all rfl) (by decide)
  · exact (C6_thm.2.2.2 _ ⟨0, 1, [], [], [], [], 0, 0, 0, 0⟩ []
      (by with_unfolding_all rfl) (by decide) 5 5).1

end Acb

namespace Csv

/-- The `ColorFormat` enumeration of the CSV codec. -/
inductive ColorFormat where
  | auto
  | rgb
  | rgbFloat
  | hex
  | cmyk
  | hsb
  | lab
deriving DecidableEq, Repr

/-- Go `unicode.IsSpace` (the White_Space code points). -/
def goIsSpace (c : Char) : Bool :=
  let n := c.toNat
  (9 ≤ n && n ≤ 13) || n == 32 || n == 133 || n == 160 || n == 0x1680 ||
    (0x2000 ≤ n && n ≤ 0x200A) || n == 0x2028 || n == 0x2029 || n == 0x202F ||
    n == 0x205F || n == 0x3000

/-- Go `strings.TrimSpace`. -/
def goTrimSpace (s : String) : String :=
  ⟨((s.data.dropWhile goIsSpace).reverse.dropWhile goIsSpace).reverse⟩

/-- Go `strings.HasPrefix(s, "#")`. -/
def hashStart (s : String) : Bool :=
  match s.data with
  | c :: _ => c = '#'
  | [] => false

def isDigit (c : Char) : Bool := '0' ≤ c && c ≤ '9'

def isHexDigit (c : Char) : Bool :=
  isDigit c || ('a' ≤ c && c ≤ 'f') || ('A' ≤ c && c ≤ 'F')

def stripSign : List Char → List Char
  | '+' :: t => t
  | '-' :: t => t
  | cs => cs

def asciiLower (c : Char) : Char :=
  if 'A' ≤ c ∧ c ≤ 'Z' then Char.ofNat (c.toNat + 32) else c

/-- Exponent part: optional sign then at least one decimal digit. -/
def expDigitsOk (cs : List Char) : Bool :=
  let t := stripSign cs
  !t.isEmpty && t.all isDigit

/-- Decimal mantissa with optional fraction and optional `e`-exponent. -/
def decOk (cs : List Char) : Bool :=
  let ip := cs.takeWhile isDigit
  let r := cs.dropWhile isDigit
  let fr : List Char × List Char :=
    match r with
    | '.' :: t => (t.takeWhile isDigit, t.dropWhile isDigit)
    | _ => ([], r)
  if ip.length + fr.1.length = 0 then false
  else
    match fr.2 with
    | [] => true
    | e :: t => (e = 'e' || e = 'E') && expDigitsOk t

/-- Hex mantissa with required binary exponent. -/
def hexOk (cs : List Char) : Bool :=
  let ip := cs.takeWhile isHexDigit
  let r := cs.dropWhile isHexDigit
  let fr : List Char × List Char :=
    match r with
    | '.' :: t => (t.takeWhile isHexDigit, t.dropWhile isHexDigit)
    | _ => ([], r)
  if ip.length + fr.1.length = 0 then false
  else
    match fr.2 with
    | [] => false
    | p :: t => (p = 'p' || p = 'P') && expDigitsOk t

/-- Acceptance of Go `strconv.ParseFloat`: optional sign; `inf`, `infinity`
or `nan` (case-insensitive); or a decimal/hex floating-point literal.
Digit-separating underscores (accepted by Go in literal position) are not
modelled; no claim input uses them. -/
def parseFloatOk (s : String) : Bool :=
  let cs := stripSign s.data
  let low := cs.map asciiLower
  if low = "inf".data ∨ low = "infinity".data ∨ low = "nan".data then true
  else
    match cs with
    | '0' :: x :: rest => if x = 'x' ∨ x = 'X' then hexOk rest else decOk cs
    | _ => decOk cs

/-- `Importer.detectFormat` from `io/csv/csv.go`: empty row falls back to
RGB; a `#`-prefixed (after trimming) first or last field means Hex;
otherwise the count of fields parsing as floats decides (3 ⇒ RGB,
4 ⇒ CMYK, anything else ⇒ RGB). -/
def detectFormat : List String → ColorFormat
  | [] => .rgb
  | r0 :: rest =>
    if hashStart (goTrimSpace r0) ||
        hashStart (goTrimSpace ((r0 :: rest).getLast (List.cons_ne_nil r0 rest))) then
      .hex
    else
      match ((r0 :: rest).filter fun f => parseFloatOk (goTrimSpace f)).length with
      | 3 => .rgb
      | 4 => .cmyk
      | _ => .rgb

/-- Claim C7 as stated: Hex whenever ANY field begins with `#`; otherwise
the numeric-column count decides. -/
def claimC7 : Prop :=
  ∀ record : List String,
    (record.any (fun f => hashStart (goTrimSpace f)) = true →
      detectFormat record = .hex) ∧
    (record.any (fun f => hashStart (goTrimSpace f)) = false →
      detectFormat record =
        match (record.filter fun f => parseFloatOk (goTrimSpace f)).length with
        | 3 => .rgb
        | 4 => .cmyk
        | _ => .rgb)

/-- Claim C7, counterexample: in the row `["x", "#FF0000", "y"]` a middle
field begins with `#`, but the code only inspects the first and last
fields, so it returns RGB, not Hex. -/
theorem C7_counterexample :
    ¬ claimC7 ∧ detectFormat ["x", "#FF0000", "y"] = .rgb := by
  constructor
  · intro h
    have h2 := (h ["x", "#FF0000", "y"]).1 (by with_unfolding_all rfl)
    exact absurd h2 (by with_unfolding_all decide)
  · with_unfolding_all rfl

/-- Claim C7, amended: auto-detection returns Hex exactly when the FIRST or
the LAST field of the row begins with `#` after trimming; otherwise 3
float-parsable fields give RGB, 4 give CMYK, and any other count gives
RGB (the empty row also falls back to RGB). -/
theorem C7_amended (record : List String) :
    ((match record with
      | [] => false
      | r0 :: rest => hashStart (goTrimSpace r0) ||
          hashStart (goTrimSpace ((r0 :: rest).getLast (List.cons_ne_nil r0 rest))))
        = true → detectFormat record = .hex) ∧
    ((match record with
      | [] => false
      | r0 :: rest => hashStart (goTrimSpace r0) ||
          hashStart (goTrimSpace ((r0 :: rest).getLast (List.cons_ne_nil r0 rest))))
        = false → detectFormat record =
      match (record.filter fun f => parseFloatOk (goTrimSpace f)).length with
      | 3 => .rgb
      | 4 => .cmyk
      | _ => .rgb) := by
  cases record with
  | nil =>
    refine ⟨fun h => by simp at h, fun _ => ?_⟩
    rfl
  | cons r0 rest =>
    constructor
    · intro h
      have h' : (hashStart (goTrimSpace r0) ||
          hashStart (goTrimSpace ((r0 :: rest).getLast (List.cons_ne_nil r0 rest))))
            = true := h
      simp only [detectFormat]
      rw [if_pos h']
    · intro h
      have h' : (hashStart (goTrimSpace r0) ||
          hashStart (goTrimSpace ((r0 :: rest).getLast (List.cons_ne_nil r0 rest))))
            = false := h
      simp only [detectFormat]
      rw [if_neg (by rw [h']; exact Bool.false_ne_true)]

/-- Witness for C7's amended theorem at concrete rows. -/
theorem C7_witness :
    ((match (["#AB", "3"] : List String) with
      | [] => false
      | r0 :: rest => hashStart (goTrimSpace r0) ||
          hashStart (goTrimSpace ((r0 :: rest).getLast (List.cons_ne_nil r0 rest))))
        = true) ∧ detectFormat ["#AB", "3"] = .hex := by
  refine ⟨by with_unfolding_all rfl, ?_⟩
  exact (C7_amended ["#AB", "3"]).1 (by with_unfolding_all rfl)

end Csv

namespace RegistryM

/-- `Registry.AutoDetectFormat` from `io/io.go`: read up to 16 bytes;
fewer than 4 is an error; `"8BCB"` means `.acb`; a leading `{` or `[`
means `.json`; a comma in the first line means `.csv`; otherwise error.
A read from a byte source returns `min 16 (length)` bytes. -/
def autoDetectFormat (data : List ℕ) : Except String String :=
  let n := min 16 data.length
  if n < 4 then .error "insufficient data to detect format"
  else
    let buffer := data.take n
    if buffer.take 4 = [56, 66, 67, 66] then .ok ".acb"
    else if buffer.head? = some 123 ∨ buffer.head? = some 91 then .ok ".json"
    else if (buffer.takeWhile (fun b => b ≠ 10)).contains 44 then .ok ".csv"
    else .error "unable to detect format from content"

/-- Claim C8 as stated: any input starting with `{` or `[` autodetects as
JSON, regardless of total length. -/
def claimC8 : Prop :=
  ∀ data : List ℕ, (data.head? = some 123 ∨ data.head? = some 91) →
    autoDetectFormat data = .ok ".json"

/-- Claim C8, counterexample: the single byte `{` fails with "insufficient
data" because the detector requires at least 4 bytes. -/
theorem C8_counterexample :
    ¬ claimC8 ∧
    autoDetectFormat [123] = .error "insufficient data to detect format" := by
  constructor
  · intro h
    have h2 := h [123] (Or.inl rfl)
    have h3 : autoDetectFormat [123] = .error "insufficient data to detect format" := by
      with_unfolding_all rfl
    rw [h3] at h2
    exact Except.noConfusion h2
  · with_unfolding_all rfl

/-- Claim C8, amended: any input of at least 4 bytes whose first byte is
`{` or `[` autodetects as `.json`. -/
theorem C8_amended (data : List ℕ) (hlen : 4 ≤ data.length)
    (hhead : data.head? = some 123 ∨ data.head? = some 91) :
    autoDetectFormat data = .ok ".json" := by
  cases data with
  | nil => simp at hlen
  | cons b t =>
    have hb : b = 123 ∨ b = 91 := by
      simpa using hhead
    unfold autoDetectFormat
    have hn : ¬ (min 16 (b :: t).length < 4) := by
      simp only [List.length_cons] at hlen ⊢
      omega
    rw [if_neg hn]
    have htake : ((b :: t).take (min 16 (b :: t).length)).take 4 =
        b :: (t.take (min 16 (b :: t).length - 1)).take 3 := by
      cases hmin : min 16 (b :: t).length with
      | zero => omega
      | succ m => simp [List.take_take]
    rw [if_neg, if_pos]
    · obtain ⟨m, hm⟩ : ∃ m, 16 ⊓ (t.length + 1) = m + 1 :=
        ⟨16 ⊓ (t.length + 1) - 1, by simp only [List.length_cons] at hlen; omega⟩
      rcases hb with hb | hb <;> subst hb <;>
        simp [List.length_cons, hm, List.take_succ_cons, List.head?_cons]
    · rw [htake]
      intro hcon
      have := List.head_eq_of_cons_eq hcon
      omega

/-- Witness for C8's amended theorem at a concrete 4-byte input. -/
theorem C8_witness :
    4 ≤ ([123, 1, 2, 3] : List ℕ).length ∧
    autoDetectFormat [123, 1, 2, 3] = .ok ".json" := by
  refine ⟨by decide, C8_amended [123, 1, 2, 3] (by decide) (Or.inl rfl)⟩

end RegistryM

namespace Color

/-!
Interval certificates for the `ℝ`-valued LAB conversions.  A bound on
`t ^ (2.4)` is certified by a rational `q` with `q^5 ≤ t^12` (and dually),
and a bound on a cube root by a rational cube; the rational inequalities are
closed by `norm_num`.
-/

theorem rpowGE (t q : ℝ) (ht : 0 ≤ t) (hq : 0 ≤ q) (h : q ^ 5 ≤ t ^ 12) :
    q ≤ t ^ (2.4 : ℝ) := by
  have h24 : (2.4 : ℝ) = (12 : ℕ) * (((5 : ℕ) : ℝ))⁻¹ := by norm_num
  rw [h24, Real.rpow_natCast_mul ht]
  calc q = (q ^ (5 : ℕ)) ^ (((5 : ℕ) : ℝ))⁻¹ :=
        (Real.pow_rpow_inv_natCast hq (by norm_num)).symm
    _ ≤ (t ^ (12 : ℕ)) ^ (((5 : ℕ) : ℝ))⁻¹ :=
        Real.rpow_le_rpow (by positivity) h (by positivity)

theorem rpowLE (t q : ℝ) (ht : 0 ≤ t) (hq : 0 ≤ q) (h : t ^ 12 ≤ q ^ 5) :
    t ^ (2.4 : ℝ) ≤ q := by
  have h24 : (2.4 : ℝ) = (12 : ℕ) * (((5 : ℕ) : ℝ))⁻¹ := by norm_num
  rw [h24, Real.rpow_natCast_mul ht]
  calc (t ^ (12 : ℕ)) ^ (((5 : ℕ) : ℝ))⁻¹ ≤ (q ^ (5 : ℕ)) ^ (((5 : ℕ) : ℝ))⁻¹ :=
        Real.rpow_le_rpow (by positivity) h (by positivity)
    _ = q := Real.pow_rpow_inv_natCast hq (by norm_num)

theorem cbrtGE (t q : ℝ) (hq : 0 ≤ q) (h : q ^ 3 ≤ t) :
    q ≤ t ^ ((1 : ℝ)/3) := by
  have h3 : ((1 : ℝ)/3) = (((3 : ℕ) : ℝ))⁻¹ := by norm_num
  rw [h3]
  calc q = (q ^ (3 : ℕ)) ^ (((3 : ℕ) : ℝ))⁻¹ :=
        (Real.pow_rpow_inv_natCast hq (by norm_num)).symm
    _ ≤ t ^ (((3 : ℕ) : ℝ))⁻¹ := Real.rpow_le_rpow (by positivity) h (by positivity)

theorem cbrtLE (t q : ℝ) (ht : 0 ≤ t) (hq : 0 ≤ q) (h : t ≤ q ^ 3) :
    t ^ ((1 : ℝ)/3) ≤ q := by
  have h3 : ((1 : ℝ)/3) = (((3 : ℕ) : ℝ))⁻¹ := by norm_num
  rw [h3]
  calc t ^ (((3 : ℕ) : ℝ))⁻¹ ≤ (q ^ (3 : ℕ)) ^ (((3 : ℕ) : ℝ))⁻¹ :=
        Real.rpow_le_rpow ht h (by positivity)
    _ = q := Real.pow_rpow_inv_natCast hq (by norm_num)

theorem labF_bounds {t lo hi flo fhi : ℝ} (h1 : lo ≤ t) (h2 : t ≤ hi)
    (hlo : (0.008856 : ℝ) < lo) (hflo : 0 ≤ flo) (hfhi : 0 ≤ fhi)
    (hq1 : flo ^ 3 ≤ lo) (hq2 : hi ≤ fhi ^ 3) :
    flo ≤ labF t ∧ labF t ≤ fhi := by
  unfold labF
  rw [if_pos (by linarith)]
  exact ⟨cbrtGE t flo hflo (le_trans hq1 h1),
         cbrtLE t fhi (by linarith) hfhi (le_trans h2 hq2)⟩

theorem clampR_id {v lo hi : ℝ} (h1 : ¬ v < lo) (h2 : ¬ v > hi) :
    clampR v lo hi = v := by
  unfold clampR
  rw [if_neg h1, if_neg h2]

theorem rndR_pos_eq {x : ℝ} {k : ℤ} (hx : 0 ≤ x) (h1 : (k : ℝ) - 1/2 ≤ x)
    (h2 : x < (k : ℝ) + 1/2) : rndR x = k := by
  unfold rndR
  rw [if_pos hx, Int.floor_eq_iff]
  refine ⟨?_, ?_⟩ <;> push_cast <;> linarith

theorem rndR_neg_eq {x : ℝ} {k : ℤ} (hx : ¬ 0 ≤ x) (h1 : (k : ℝ) - 1/2 < x)
    (h2 : x ≤ (k : ℝ) + 1/2) : rndR x = k := by
  unfold rndR
  rw [if_neg hx]
  have hfe : ⌊-x + 1/2⌋ = -k := by
    rw [Int.floor_eq_iff]
    refine ⟨?_, ?_⟩ <;> push_cast <;> linarith
  omega

theorem i8_eq (z : ℤ) (h1 : -128 ≤ z) (h2 : z ≤ 127) : i8 z = z := by
  unfold i8
  omega

theorem labL_round {v : ℝ} {k : ℤ} (h0 : 0 ≤ v) (hv : v ≤ 100)
    (h1 : (k : ℝ) - 1/2 ≤ v) (h2 : v < (k : ℝ) + 1/2)
    (hk1 : 0 ≤ k) (hk2 : k ≤ 127) :
    i8 (rndR (clampR v 0 100)) = k := by
  rw [clampR_id (not_lt.mpr h0) (not_lt.mpr hv), rndR_pos_eq h0 h1 h2]
  exact i8_eq k (by omega) hk2

theorem labAB_round_pos {v : ℝ} {k : ℤ} (h0 : 0 ≤ v) (hv : v ≤ 127)
    (h1 : (k : ℝ) - 1/2 ≤ v) (h2 : v < (k : ℝ) + 1/2)
    (hk1 : 0 ≤ k) (hk2 : k ≤ 127) :
    i8 (rndR (clampR v (-128) 127)) = k := by
  rw [clampR_id (not_lt.mpr (by linarith)) (not_lt.mpr hv), rndR_pos_eq h0 h1 h2]
  exact i8_eq k (by omega) hk2

theorem labAB_round_neg {v : ℝ} {k : ℤ} (h0 : ¬ 0 ≤ v) (hv : (-128 : ℝ) ≤ v)
    (h1 : (k : ℝ) - 1/2 < v) (h2 : v ≤ (k : ℝ) + 1/2)
    (hk1 : -128 ≤ k) (hk2 : k ≤ 0) :
    i8 (rndR (clampR v (-128) 127)) = k := by
  rw [clampR_id (not_lt.mpr hv) (not_lt.mpr (by push_neg at h0; linarith)),
    rndR_neg_eq h0 h1 h2]
  exact i8_eq k hk1 (by omega)

set_option maxHeartbeats 2000000 in
/-- `RGB(0, 0, 132).ToLAB() = LAB(14, 49, -66)`, by interval certificates
around the one gamma power and the three cube roots. -/
theorem toLAB_0_0_132 : RGB.toLAB ⟨0, 0, 132⟩ = ⟨14, 49, -66⟩ := by
  have hg0 : gammaDecode (((0 : ℕ) : ℝ) / 255) = 0 := by
    unfold gammaDecode
    rw [if_neg (by norm_num)]
    norm_num
  have hgb : gammaDecode (((132 : ℕ) : ℝ) / 255) = ((1947/3587 : ℝ)) ^ (2.4 : ℝ) := by
    unfold gammaDecode
    rw [if_pos (by norm_num), show (((132 : ℕ) : ℝ)/255 + 0.055)/1.055 = (1947/3587 : ℝ) by norm_num]
  set T : ℝ := ((1947/3587 : ℝ)) ^ (2.4 : ℝ) with hTdef
  have hT1 : (461480097/2000000000 : ℝ) ≤ T :=
    rpowGE _ _ (by norm_num) (by norm_num) (by norm_num)
  have hT2 : T ≤ (1153700243/5000000000 : ℝ) :=
    rpowLE _ _ (by norm_num) (by norm_num) (by norm_num)
  have hfx := @labF_bounds
    ((0 * 0.4124564 + 0 * 0.3575761 + T * 0.1804375) / 0.95047)
    (4380375761/100000000000) (1095093941/25000000000)
    (35250919/100000000) (881273/2500000)
    (by rw [le_div_iff (by norm_num)]; linarith)
    (by rw [div_le_iff (by norm_num)]; linarith)
    (by norm_num) (by norm_num) (by norm_num) (by norm_num) (by norm_num)
  have hfy := @labF_bounds
    ((0 * 0.2126729 + 0 * 0.7151522 + T * 0.0721750) / 1.00000)
    (16653663/1000000000) (1665366301/100000000000)
    (12768501/50000000) (25537003/100000000)
    (by rw [le_div_iff (by norm_num)]; linarith)
    (by rw [div_le_iff (by norm_num)]; linarith)
    (by norm_num) (by norm_num) (by norm_num) (by norm_num) (by norm_num)
  have hfz := @labF_bounds
    ((0 * 0.0193339 + 0 * 0.1191920 + T * 0.9503041) / 1.08883)
    (20138425109/100000000000) (20138425119/100000000000)
    (58614963/100000000) (14653741/25000000)
    (by rw [le_div_iff (by norm_num)]; linarith)
    (by rw [div_le_iff (by norm_num)]; linarith)
    (by norm_num) (by norm_num) (by norm_num) (by norm_num) (by norm_num)
  obtain ⟨hfx1, hfx2⟩ := hfx
  obtain ⟨hfy1, hfy2⟩ := hfy
  obtain ⟨hfz1, hfz2⟩ := hfz
  unfold RGB.toLAB
  dsimp only
  rw [hg0, hgb]
  rw [LAB.mk.injEq]
  refine ⟨?_, ?_, ?_⟩
  · exact labL_round (by linarith) (by linarith)
      (by push_cast; linarith) (by push_cast; linarith) (by omega) (by omega)
  · exact labAB_round_pos (by linarith) (by linarith)
      (by push_cast; linarith) (by push_cast; linarith) (by omega) (by omega)
  · exact labAB_round_neg (by push_neg; linarith) (by linarith)
      (by push_cast; linarith) (by push_cast; linarith) (by omega) (by omega)

set_option maxHeartbeats 2000000 in
/-- `RGB(255, 128, 64).ToLAB() = LAB(67, 44, 55)`, by interval certificates
(the red channel's gamma decode is exactly 1). -/
theorem toLAB_255_128_64 : RGB.toLAB ⟨255, 128, 64⟩ = ⟨67, 44, 55⟩ := by
  have hgr : gammaDecode (((255 : ℕ) : ℝ) / 255) = 1 := by
    unfold gammaDecode
    rw [if_pos (by norm_num),
      show (((255 : ℕ) : ℝ)/255 + 0.055)/1.055 = (1 : ℝ) by norm_num]
    exact Real.one_rpow _
  have hgg : gammaDecode (((128 : ℕ) : ℝ) / 255) = ((5681/10761 : ℝ)) ^ (2.4 : ℝ) := by
    unfold gammaDecode
    rw [if_pos (by norm_num),
      show (((128 : ℕ) : ℝ)/255 + 0.055)/1.055 = (5681/10761 : ℝ) by norm_num]
  have hgb2 : gammaDecode (((64 : ℕ) : ℝ) / 255) = ((3121/10761 : ℝ)) ^ (2.4 : ℝ) := by
    unfold gammaDecode
    rw [if_pos (by norm_num),
      show (((64 : ℕ) : ℝ)/255 + 0.055)/1.055 = (3121/10761 : ℝ) by norm_num]
  set Tg : ℝ := ((5681/10761 : ℝ)) ^ (2.4 : ℝ) with hTgdef
  set Tb : ℝ := ((3121/10761 : ℝ)) ^ (2.4 : ℝ) with hTbdef
  have hTg1 : (2158605001/10000000000 : ℝ) ≤ Tg :=
    rpowGE _ _ (by norm_num) (by norm_num) (by norm_num)
  have hTg2 : Tg ≤ (1079302501/5000000000 : ℝ) :=
    rpowLE _ _ (by norm_num) (by norm_num) (by norm_num)
  have hTb1 : (512694583/10000000000 : ℝ) ≤ Tb :=
    rpowGE _ _ (by norm_num) (by norm_num) (by norm_num)
  have hTb2 : Tb ≤ (64086823/1250000000 : ℝ) :=
    rpowLE _ _ (by norm_num) (by norm_num) (by norm_num)
  have hfx := @labF_bounds
    ((1 * 0.4124564 + Tg * 0.3575761 + Tb * 0.1804375) / 0.95047)
    (52489177843/100000000000) (1049783557/2000000000)
    (2520809/3125000) (80665889/100000000)
    (by rw [le_div_iff (by norm_num)]; linarith)
    (by rw [div_le_iff (by norm_num)]; linarith)
    (by norm_num) (by norm_num) (by norm_num) (by norm_num) (by norm_num)
  have hfy := @labF_bounds
    ((1 * 0.2126729 + Tg * 0.7151522 + Tb * 0.0721750) / 1.00000)
    (37074638469/100000000000) (18537319239/50000000000)
    (1122481/1562500) (14367757/20000000)
    (by rw [le_div_iff (by norm_num)]; linarith)
    (by rw [div_le_iff (by norm_num)]; linarith)
    (by norm_num) (by norm_num) (by norm_num) (by norm_num) (by norm_num)
  have hfz := @labF_bounds
    ((1 * 0.0193339 + Tg * 0.1191920 + Tb * 0.9503041) / 1.08883)
    (4306655821/50000000000) (8613311653/100000000000)
    (11040703/25000000) (44162813/100000000)
    (by rw [le_div_iff (by norm_num)]; linarith)
    (by rw [div_le_iff (by norm_num)]; linarith)
    (by norm_num) (by norm_num) (by norm_num) (by norm_num) (by norm_num)
  obtain ⟨hfx1, hfx2⟩ := hfx
  obtain ⟨hfy1, hfy2⟩ := hfy
  obtain ⟨hfz1, hfz2⟩ := hfz
  unfold RGB.toLAB
  dsimp only
  rw [hgr, hgg, hgb2]
  rw [LAB.mk.injEq]
  refine ⟨?_, ?_, ?_⟩
  · exact labL_round (by linarith) (by linarith)
      (by push_cast; linarith) (by push_cast; linarith) (by omega) (by omega)
  · exact labAB_round_pos (by linarith) (by linarith)
      (by push_cast; linarith) (by push_cast; linarith) (by omega) (by omega)
  · exact labAB_round_pos (by linarith) (by linarith)
      (by push_cast; linarith) (by push_cast; linarith) (by omega) (by omega)

set_option maxHeartbeats 2000000 in
/-- The red channel of `LAB(14, 49, -66).ToRGB()` is 8: for this input the
whole red pipeline stays in the rational branches (the linear inverse gamma
branch applies), so it evaluates exactly. -/
theorem toRGB_14_49_m66_r : (LAB.toRGB ⟨14, 49, -66⟩).r = 8 := by
  norm_num [LAB.toRGB, labFInv, gammaEncode, clampR, rndR, u8]
  decide

end Color

namespace Color

/-- Absolute difference of two naturals, the per-channel round-trip error. -/
def natDist (a b : ℕ) : ℕ := if a ≤ b then b - a else a - b

/-- The C/M/Y channel of `RGB.ToCMYK` as a pure integer formula: for maximum
channel `M ≥ 1` and channel value `v ≤ M`, the stored value is
`round(100·(M−v)/M)`, written with integer division (`rndQ_natDiv`). -/
def cChan (v M : ℕ) : ℕ := (2 * (100 * (M - v)) + M) / (2 * M)

/-- The K channel of `RGB.ToCMYK` as a pure integer formula:
`round(100·(255−M)/255)`. -/
def kOf (M : ℕ) : ℕ := (2 * (100 * (255 - M)) + 255) / (2 * 255)

/-- One channel of `CMYK.ToRGB` as a pure integer formula: for channel `C`
and black `K` (both ≤ 100), the stored value is
`round(255·(100−C)·(100−K)/10000)`. -/
def outChan (C K : ℕ) : ℕ := (2 * (255 * ((100 - C) * (100 - K))) + 10000) / (2 * 10000)

/-- One channel of the CMYK round trip `c.ToCMYK().ToRGB()`, as a pure
integer function of the channel value and the maximum channel. -/
def cmykChanF (v M : ℕ) : ℕ := outChan (cChan v M) (kOf M)

/-- Boolean check that one (channel, maximum) pair round-trips within 2. -/
def pairOk (v M : ℕ) : Bool := Nat.ble (natDist (cmykChanF v M) v) 2

/-- Bounded checker: `chkD f n` holds iff `f` holds on `0, …, n−1`.  Written
with a bare `Nat.rec` so that the kernel evaluates it with literal
arithmetic. -/
def chkD (f : ℕ → Bool) (n : ℕ) : Bool :=
  Nat.rec true (fun k ih => f k && ih) n

/-- Exhaustive check of `pairOk` over all `M < 256` and `v ≤ M`. -/
def cmykAllOk : Bool := chkD (fun M => chkD (fun v => pairOk v M) (M + 1)) 256

theorem natDiv_bounds (N D : ℕ) (hD : 0 < D) :
    ((N / D : ℕ) : ℚ) * (D : ℚ) ≤ (N : ℚ) ∧ (N : ℚ) < ((N / D : ℕ) : ℚ) * (D : ℚ) + (D : ℚ) := by
  have h1 : N / D * D ≤ N := Nat.div_mul_le_self N D
  have h2 : N < N / D * D + D := Nat.lt_div_mul_add hD
  constructor
  · exact_mod_cast h1
  · exact_mod_cast h2

theorem rndQ_natDiv (a b : ℕ) (hb : 0 < b) :
    rndQ ((a : ℚ) / (b : ℚ)) = (((2 * a + b) / (2 * b) : ℕ) : ℤ) := by
  have hbQ : (0 : ℚ) < (b : ℚ) := by exact_mod_cast hb
  have h0 : (0 : ℚ) ≤ (a : ℚ) / (b : ℚ) := by positivity
  rw [rndQ, if_pos h0, Int.floor_eq_iff]
  have e : (a : ℚ) / (b : ℚ) + 1 / 2 = ((2 * a + b : ℕ) : ℚ) / ((2 * b : ℕ) : ℚ) := by
    push_cast
    field_simp
    ring
  have hDQ : (0 : ℚ) < ((2 * b : ℕ) : ℚ) := by positivity
  have aux := natDiv_bounds (2 * a + b) (2 * b) (by omega)
  rw [Int.cast_natCast]
  constructor
  · rw [e, le_div_iff₀ hDQ]
    exact aux.1
  · rw [e, div_lt_iff₀ hDQ]
    nlinarith [aux.2]

theorem u8_natCast (n : ℕ) (h : n < 256) : u8 ((n : ℕ) : ℤ) = n := by
  simp [u8, Nat.mod_eq_of_lt h]

theorem cChan_le (v M : ℕ) (hM : 1 ≤ M) : cChan v M ≤ 100 := by
  have h : cChan v M < 101 := by
    rw [cChan, Nat.div_lt_iff_lt_mul (by omega)]
    omega
  omega

theorem kOf_le (M : ℕ) : kOf M ≤ 100 := by
  have h : kOf M < 101 := by
    rw [kOf, Nat.div_lt_iff_lt_mul (by omega)]
    omega
  omega

theorem outChan_lt (C K : ℕ) (hC : C ≤ 100) (hK : K ≤ 100) : outChan C K < 256 := by
  have h1 : 100 - C ≤ 100 := by omega
  have h2 : 100 - K ≤ 100 := by omega
  have hmul : (100 - C) * (100 - K) ≤ 100 * 100 := Nat.mul_le_mul h1 h2
  rw [outChan, Nat.div_lt_iff_lt_mul (by omega)]
  omega

/-- Symbolic evaluation of `RGB.ToCMYK` on a non-black color: every stored
channel is the integer formula `cChan` / `kOf` of the maximum channel. -/
theorem toCMYK_eq (c : RGB) (hr : c.r ≤ 255) (hg : c.g ≤ 255) (hb : c.b ≤ 255)
    (hM : 1 ≤ max c.r (max c.g c.b)) :
    c.toCMYK = ⟨cChan c.r (max c.r (max c.g c.b)),
                cChan c.g (max c.r (max c.g c.b)),
                cChan c.b (max c.r (max c.g c.b)),
                kOf (max c.r (max c.g c.b))⟩ := by
  have hM255 : max c.r (max c.g c.b) ≤ 255 := max_le hr (max_le hg hb)
  have hMQ0 : ((max c.r (max c.g c.b) : ℕ) : ℚ) ≠ 0 := by
    have : (1 : ℚ) ≤ ((max c.r (max c.g c.b) : ℕ) : ℚ) := by exact_mod_cast hM
    linarith
  have hmax : max ((c.r : ℚ) / 255) (max ((c.g : ℚ) / 255) ((c.b : ℚ) / 255))
      = ((max c.r (max c.g c.b) : ℕ) : ℚ) / 255 := by
    rw [max_div_div_right (by norm_num : (0:ℚ) ≤ 255),
        max_div_div_right (by norm_num : (0:ℚ) ≤ 255)]
    push_cast [Nat.cast_max]
    ring_nf
  have hcond : ¬ (1 - ((max c.r (max c.g c.b) : ℕ) : ℚ) / 255 = 1) := by
    intro h
    rw [sub_eq_self, div_eq_zero_iff] at h
    rcases h with h | h
    · exact hMQ0 h
    · norm_num at h
  have echan : ∀ v : ℕ, v ≤ max c.r (max c.g c.b) →
      (1 - (v : ℚ) / 255 - (1 - ((max c.r (max c.g c.b) : ℕ) : ℚ) / 255)) /
        (1 - (1 - ((max c.r (max c.g c.b) : ℕ) : ℚ) / 255)) * 100
      = ((100 * (max c.r (max c.g c.b) - v) : ℕ) : ℚ) / ((max c.r (max c.g c.b) : ℕ) : ℚ) := by
    intro v hv
    push_cast [Nat.cast_sub hv]
    field_simp
    ring
  have ek : (1 - ((max c.r (max c.g c.b) : ℕ) : ℚ) / 255) * 100
      = ((100 * (255 - max c.r (max c.g c.b)) : ℕ) : ℚ) / ((255 : ℕ) : ℚ) := by
    push_cast [Nat.cast_sub hM255]
    field_simp
    ring
  simp only [RGB.toCMYK, hmax, if_neg hcond]
  rw [echan c.r (le_max_left _ _),
      echan c.g (le_trans (le_max_left _ _) (le_max_right _ _)),
      echan c.b (le_trans (le_max_right _ _) (le_max_right _ _)),
      ek,
      rndQ_natDiv _ _ hM,
      rndQ_natDiv _ _ hM,
      rndQ_natDiv _ _ hM,
      rndQ_natDiv _ _ (by norm_num)]
  rw [u8_natCast _ (by have := cChan_le c.r _ hM; rw [cChan] at this; omega),
      u8_natCast _ (by have := cChan_le c.g _ hM; rw [cChan] at this; omega),
      u8_natCast _ (by have := cChan_le c.b _ hM; rw [cChan] at this; omega),
      u8_natCast _ (by have := kOf_le (max c.r (max c.g c.b)); rw [kOf] at this; omega)]
  rfl

/-- Symbolic evaluation of `CMYK.ToRGB` on in-range channels: every stored
channel is the integer formula `outChan`. -/
theorem CMYK.toRGB_eq (x : CMYK) (hc : x.c ≤ 100) (hm : x.m ≤ 100) (hy : x.y ≤ 100)
    (hk : x.k ≤ 100) :
    x.toRGB = ⟨outChan x.c x.k, outChan x.m x.k, outChan x.y x.k⟩ := by
  have e : ∀ V : ℕ, V ≤ 100 →
      (255 : ℚ) * (1 - (V : ℚ) / 100) * (1 - (x.k : ℚ) / 100)
      = ((255 * ((100 - V) * (100 - x.k)) : ℕ) : ℚ) / ((10000 : ℕ) : ℚ) := by
    intro V hV
    push_cast [Nat.cast_sub hV, Nat.cast_sub hk]
    field_simp
    ring
  simp only [CMYK.toRGB]
  rw [e x.c hc, e x.m hm, e x.y hy,
      rndQ_natDiv _ _ (by norm_num), rndQ_natDiv _ _ (by norm_num),
      rndQ_natDiv _ _ (by norm_num)]
  rw [u8_natCast _ (by have := outChan_lt x.c x.k hc hk; rw [outChan] at this; omega),
      u8_natCast _ (by have := outChan_lt x.m x.k hm hk; rw [outChan] at this; omega),
      u8_natCast _ (by have := outChan_lt x.y x.k hy hk; rw [outChan] at this; omega)]
  rfl

/-- The CMYK round trip on a non-black color is, channel by channel, the
pure integer function `cmykChanF` of the channel and the maximum channel. -/
theorem cmyk_bridge (c : RGB) (hr : c.r ≤ 255) (hg : c.g ≤ 255) (hb : c.b ≤ 255)
    (hM : 1 ≤ max c.r (max c.g c.b)) :
    c.toCMYK.toRGB = ⟨cmykChanF c.r (max c.r (max c.g c.b)),
                      cmykChanF c.g (max c.r (max c.g c.b)),
                      cmykChanF c.b (max c.r (max c.g c.b))⟩ := by
  rw [toCMYK_eq c hr hg hb hM]
  rw [CMYK.toRGB_eq _ (cChan_le _ _ hM) (cChan_le _ _ hM) (cChan_le _ _ hM) (kOf_le _)]
  rfl

theorem chkD_sound (f : ℕ → Bool) : ∀ n, chkD f n = true → ∀ j, j < n → f j = true := by
  intro n
  induction n with
  | zero => intro _ j hj; exact absurd hj (Nat.not_lt_zero j)
  | succ k ih =>
    intro h j hj
    have h' : (f k && chkD f k) = true := h
    rw [Bool.and_eq_true] at h'
    rcases Nat.lt_succ_iff_lt_or_eq.mp hj with hlt | heq
    · exact ih h'.2 j hlt
    · rw [heq]; exact h'.1

set_option maxRecDepth 10000 in
set_option maxHeartbeats 4000000 in
theorem cmykAllOk_true : cmykAllOk = true := by decide

theorem pairOk_all : ∀ M, M < 256 → ∀ v, v < M + 1 → pairOk v M = true := by
  intro M hM v hv
  have h1 := chkD_sound (fun M => chkD (fun v => pairOk v M) (M + 1)) 256 cmykAllOk_true M hM
  exact chkD_sound (fun v => pairOk v M) (M + 1) h1 v hv

/-- The CMYK round trip moves every channel of every valid RGB color by at
most 2. -/
theorem cmyk_roundtrip (c : RGB) (hr : c.r ≤ 255) (hg : c.g ≤ 255) (hb : c.b ≤ 255) :
    natDist (c.toCMYK.toRGB).r c.r ≤ 2 ∧ natDist (c.toCMYK.toRGB).g c.g ≤ 2 ∧
      natDist (c.toCMYK.toRGB).b c.b ≤ 2 := by
  rcases Nat.eq_zero_or_pos (max c.r (max c.g c.b)) with h0 | hM
  · rcases Nat.max_eq_zero_iff.mp h0 with ⟨hr0, hgb⟩
    rcases Nat.max_eq_zero_iff.mp hgb with ⟨hg0, hb0⟩
    rcases c with ⟨cr, cg, cb⟩
    simp only at hr0 hg0 hb0
    subst hr0; subst hg0; subst hb0
    refine ⟨?_, ?_, ?_⟩ <;> with_unfolding_all decide
  · rw [cmyk_bridge c hr hg hb hM]
    have hMlt : max c.r (max c.g c.b) < 256 := by
      have := max_le hr (max_le hg hb)
      omega
    refine ⟨Nat.le_of_ble_eq_true (pairOk_all _ hMlt c.r (Nat.lt_succ_of_le (le_max_left _ _))),
            Nat.le_of_ble_eq_true (pairOk_all _ hMlt c.g
              (Nat.lt_succ_of_le (le_trans (le_max_left _ _) (le_max_right _ _)))),
            Nat.le_of_ble_eq_true (pairOk_all _ hMlt c.b
              (Nat.lt_succ_of_le (le_trans (le_max_right _ _) (le_max_right _ _))))⟩

/-- Claim C1 as stated: every RGB color round-trips through CMYK and through
HSB within 2 per channel, and through LAB within 5 per channel. -/
def claimC1 : Prop :=
  ∀ c : RGB, c.r ≤ 255 → c.g ≤ 255 → c.b ≤ 255 →
    (natDist (c.toCMYK.toRGB).r c.r ≤ 2 ∧ natDist (c.toCMYK.toRGB).g c.g ≤ 2 ∧
      natDist (c.toCMYK.toRGB).b c.b ≤ 2) ∧
    (natDist (c.toHSB.toRGB).r c.r ≤ 2 ∧ natDist (c.toHSB.toRGB).g c.g ≤ 2 ∧
      natDist (c.toHSB.toRGB).b c.b ≤ 2) ∧
    (natDist (c.toLAB.toRGB).r c.r ≤ 5 ∧ natDist (c.toLAB.toRGB).g c.g ≤ 5 ∧
      natDist (c.toLAB.toRGB).b c.b ≤ 5)

/-- Claim C1, counterexample: the claim fails already for the HSB round
trip, which moves the green channel of RGB(0, 115, 251) by 3 (the trip
returns RGB(0, 112, 250)). -/
theorem C1_counterexample : ¬ claimC1 := by
  intro h
  have h2 := (h ⟨0, 115, 251⟩ (by decide) (by decide) (by decide)).2.1.2.1
  have e : (RGB.toHSB ⟨0, 115, 251⟩).toRGB = ⟨0, 112, 250⟩ := by
    with_unfolding_all rfl
  rw [e] at h2
  exact absurd h2 (by decide)

/-- Claim C1, amended: the CMYK round trip does stay within 2 per channel
for every valid RGB color, but the HSB bound of 2 and the LAB bound of 5
are both exceeded: the HSB trip moves the green channel of RGB(0, 115, 251)
by exactly 3, and the LAB trip moves the red channel of RGB(0, 0, 132) by
exactly 8. -/
theorem C1_amended :
    (∀ c : RGB, c.r ≤ 255 → c.g ≤ 255 → c.b ≤ 255 →
      natDist (c.toCMYK.toRGB).r c.r ≤ 2 ∧ natDist (c.toCMYK.toRGB).g c.g ≤ 2 ∧
        natDist (c.toCMYK.toRGB).b c.b ≤ 2) ∧
    natDist ((RGB.toHSB ⟨0, 115, 251⟩).toRGB).g 115 = 3 ∧
    natDist ((RGB.toLAB ⟨0, 0, 132⟩).toRGB).r 0 = 8 := by
  refine ⟨fun c hr hg hb => cmyk_roundtrip c hr hg hb, ?_, ?_⟩
  · have e : (RGB.toHSB ⟨0, 115, 251⟩).toRGB = ⟨0, 112, 250⟩ := by
      with_unfolding_all rfl
    rw [e]
    decide
  · rw [toLAB_0_0_132, toRGB_14_49_m66_r]
    decide

/-- Claim C2: RGB(255, 128, 64) converts to CMYK(0, 50, 75, 0), to
HSB(20, 75, 100) and to LAB(67, 44, 55). -/
theorem C2_thm :
    RGB.toCMYK ⟨255, 128, 64⟩ = ⟨0, 50, 75, 0⟩ ∧
    RGB.toHSB ⟨255, 128, 64⟩ = ⟨20, 75, 100⟩ ∧
    RGB.toLAB ⟨255, 128, 64⟩ = ⟨67, 44, 55⟩ := by
  refine ⟨by with_unfolding_all rfl, by with_unfolding_all rfl, toLAB_255_128_64⟩

end Color
